import Mathlib

/-!
# Verification of the Authentication & Session Authority

Shallow embedding of the repository's `AuthService`
(`src/Auth_Service/Index.controller.ts`) and the parts of
`ValidationService` (`src/Validation_Service/Index.controller.ts`) it calls.

Modelling conventions:

* Runtime strings are modelled as their byte sequences (`Str := List Nat`).
  For the ASCII literals appearing in the source this is exactly the
  UTF-16/UTF-8 code-unit sequence JavaScript operates on, and for the
  magic-link codec (which works through `Buffer.from`) the byte sequence is
  precisely what the code manipulates.  `String.prototype.split(".")` splits
  on byte 46, which in UTF-8 occurs only as the character `.` itself.
* `createHmac("sha256", key).update(data).digest("hex")` is an external
  crypto primitive; it is modelled as an arbitrary function parameter
  `hmac : Str → Str → Str` constrained (where a claim needs it) by
  `HexOutput hmac`: every output byte is a lowercase hexadecimal character,
  which is true of any `digest("hex")` result.
* `jwt.sign(payload, key, {expiresIn})` from the `jsonwebtoken` library is
  modelled as a function parameter `jwtSign : Str → Nat → Str → Str`
  (key, userId, expiresIn).  Where a claim depends on the shape of a real
  JWT, the parameter is constrained by `JwtShaped`: the output is three
  dot-free segments joined by dots, and the middle (payload) segment is the
  base64 of a JSON object, hence starts with the bytes of `"eyJ"` (in
  particular its second byte is `y` = 121, not a hex character).
* The Redis session cache is a key/value store `Cache`; TTLs do not matter
  for any claim considered here, so `set ... {EX}` is modelled as `set`.
* The MySQL `Account` table is an association list from email to
  `{ID, Password}` rows; the spec guarantees at most one row per email.
* `bcrypt.compare` is an external one-way-hash verifier, modelled as a
  function parameter `bcryptCompare : Str → Str → Bool` (password, hash).
-/

/-! ## Definitions -/

/-- Runtime strings, modelled as byte sequences. -/
abbrev Str := List Nat

/-- Byte sequence of an ASCII string literal. -/
def bytes (s : String) : Str := s.data.map Char.toNat

/-- JavaScript `s.split(sep)` for a single-byte separator (no limit). -/
def splitOn (sep : Nat) : Str → List Str
  | [] => [[]]
  | b :: r =>
    if b = sep then [] :: splitOn sep r
    else
      match splitOn sep r with
      | [] => [[b]]
      | s :: ss => (b :: s) :: ss

/-- Join a list of segments with a single-byte separator. -/
def joinSep (sep : Nat) : List Str → Str
  | [] => []
  | [p] => p
  | p :: ps => p ++ sep :: joinSep sep ps

/-- The base64 alphabet character (as a byte) for a 6-bit value. -/
def b64Char (n : Nat) : Nat :=
  if n < 26 then 65 + n
  else if n < 52 then 97 + (n - 26)
  else if n < 62 then 48 + (n - 52)
  else if n = 62 then 43
  else 47

/-- The 6-bit value of a base64 alphabet byte (`none` for `=` and other
non-alphabet bytes, which Node's forgiving decoder skips). -/
def b64Val (c : Nat) : Option Nat :=
  if 65 ≤ c ∧ c ≤ 90 then some (c - 65)
  else if 97 ≤ c ∧ c ≤ 122 then some (c - 97 + 26)
  else if 48 ≤ c ∧ c ≤ 57 then some (c - 48 + 52)
  else if c = 43 then some 62
  else if c = 47 then some 63
  else none

/-- Standard base64 encoding of a byte sequence, with `=` padding, as
produced by `Buffer.from(s).toString("base64")`. -/
def base64Encode : Str → Str
  | [] => []
  | [a] => [b64Char (a / 4), b64Char (a % 4 * 16), 61, 61]
  | [a, b] => [b64Char (a / 4), b64Char (a % 4 * 16 + b / 16),
      b64Char (b % 16 * 4), 61]
  | a :: b :: c :: r =>
      b64Char (a / 4) :: b64Char (a % 4 * 16 + b / 16) ::
      b64Char (b % 16 * 4 + c / 64) :: b64Char (c % 64) :: base64Encode r

/-- Reassemble bytes from a stream of 6-bit values. -/
def b64DecGroups : List Nat → Str
  | n1 :: n2 :: n3 :: n4 :: rest =>
      (n1 * 4 + n2 / 16) :: (n2 % 16 * 16 + n3 / 4) :: (n3 % 4 * 64 + n4) ::
      b64DecGroups rest
  | [n1, n2] => [n1 * 4 + n2 / 16]
  | [n1, n2, n3] => [n1 * 4 + n2 / 16, n2 % 16 * 16 + n3 / 4]
  | _ => []

/-- Base64 decoding as performed by `Buffer.from(s, "base64")`: non-alphabet
bytes (including the `=` padding) are skipped, then 6-bit groups are packed
back into bytes. -/
def base64Decode (s : Str) : Str := b64DecGroups (s.filterMap b64Val)

/-- Fuel-driven most-significant-first decimal digits of `n` (empty for 0). -/
def natToDecAux : Nat → Nat → Str
  | 0, _ => []
  | f + 1, n => if n = 0 then [] else natToDecAux f (n / 10) ++ [48 + n % 10]

/-- Decimal ASCII rendering of a natural number, as JavaScript template
interpolation `${n}` produces for the integer timestamps used here. -/
def natToDec (n : Nat) : Str := if n = 0 then [48] else natToDecAux (n + 1) n

/-- ASCII whitespace bytes, the `\s` class restricted to ASCII. -/
def isWsB (b : Nat) : Bool :=
  b = 9 || b = 10 || b = 11 || b = 12 || b = 13 || b = 32

/-- Decimal digit byte. -/
def isDigitB (b : Nat) : Bool := 48 ≤ b && b ≤ 57

/-- One step of accumulating a decimal digit byte into an integer value. -/
def digitStep (acc : Int) (c : Nat) : Int := acc * 10 + c - 48

/-- Value of the longest digit run at the front of `s` (the behaviour of
`parseInt(s, 10)` after sign handling): `none` models `NaN`. -/
def parsePosB (s : Str) : Option Int :=
  let ds := s.takeWhile isDigitB
  if ds = [] then none
  else some (ds.foldl digitStep 0)

/-- JavaScript `parseInt(s, 10)`: skip leading whitespace, optional sign,
then the longest decimal-digit run; `none` models `NaN`. -/
def parseIntB (s : Str) : Option Int :=
  match s.dropWhile isWsB with
  | [] => none
  | c :: r =>
    if c = 43 then parsePosB r
    else if c = 45 then (parsePosB r).map (fun v => -v)
    else parsePosB (c :: r)

/-- A byte of a lowercase hexadecimal rendering (`digest("hex")`). -/
def isHexByte (b : Nat) : Prop := (48 ≤ b ∧ b ≤ 57) ∨ (97 ≤ b ∧ b ≤ 102)

/-- Every output byte of the HMAC model is a lowercase hex character — true
of any `digest("hex")` result. -/
def HexOutput (hmac : Str → Str → Str) : Prop :=
  ∀ k d b, b ∈ hmac k d → isHexByte b

/-- Model of `checkEmailFormat`: the regex `/^[^\s@]+@[^\s@]+\.[^\s@]+$/` over bytes
(ASCII `\s`): one `@`, a nonempty whitespace-free local part, and a domain
containing a `.` with nonempty whitespace-free text on both sides. -/
def checkEmailFormat (email : Str) : Bool :=
  if email = [] then false
  else
    match splitOn 64 email with
    | [lp, dp] =>
      !(lp = []) && lp.all (fun b => !(isWsB b)) &&
      dp.all (fun b => !(isWsB b)) &&
      (List.range dp.length).any
        (fun i => dp.getD i 0 = 46 && 0 < i && i + 1 < dp.length)
    | _ => false

/-- Bytes allowed by the password body class `[\w!@#$%^& *]`. -/
def pwClassB (b : Nat) : Bool :=
  (48 ≤ b && b ≤ 57) || (65 ≤ b && b ≤ 90) || (97 ≤ b && b ≤ 122) ||
  b = 95 || b = 33 || b = 64 || b = 35 || b = 36 || b = 37 || b = 94 ||
  b = 38 || b = 32 || b = 42

/-- Bytes of the required special class `[!@#$%^&* ]`. -/
def pwSpecialB (b : Nat) : Bool :=
  b = 33 || b = 64 || b = 35 || b = 36 || b = 37 || b = 94 || b = 38 ||
  b = 42 || b = 32

/-- Model of `checkPasswordFormat`: the regex
`/^(?=.*[a-z])(?=.*[A-Z])(?=.*\d)(?=.*[!@#$%^&* ])[\w!@#$%^& *]{8,}$/`:
at least one lowercase, uppercase, digit and special byte, and the whole
string at least 8 bytes from the body class. -/
def checkPasswordFormat (pw : Str) : Bool :=
  if pw = [] then false
  else
    pw.any (fun b => 97 ≤ b && b ≤ 122) &&
    pw.any (fun b => 65 ≤ b && b ≤ 90) &&
    pw.any isDigitB &&
    pw.any pwSpecialB &&
    8 ≤ pw.length &&
    pw.all pwClassB

/-- A hex digit byte under the `/i` flag (`[0-9a-fA-F]`). -/
def isHexDigitCI (b : Nat) : Bool :=
  (48 ≤ b && b ≤ 57) || (97 ≤ b && b ≤ 102) || (65 ≤ b && b ≤ 70)

/-- The UUID regex
`/^[0-9a-f]{8}-[0-9a-f]{4}-[0-9a-f]{4}-[0-9a-f]{4}-[0-9a-f]{12}$/i`:
five hyphen-separated all-hex groups of lengths 8, 4, 4, 4, 12. -/
def uuidShape (s : Str) : Bool :=
  match splitOn 45 s with
  | [a, b, c, d, e] =>
    a.length = 8 && b.length = 4 && c.length = 4 && d.length = 4 &&
    e.length = 12 && (a ++ b ++ c ++ d ++ e).all isHexDigitCI
  | _ => false

/-- Model of `checkAPIKeyFormat`: length 36, the UUID regex, and
`Buffer.from(s with hyphens removed, "hex")` yielding 16 bytes (32 hex
characters parsed in pairs). -/
def checkAPIKeyFormat (s : Str) : Bool :=
  if s = [] then false
  else if !(s.length = 36) then false
  else if !(uuidShape s) then false
  else (s.filter (fun b => !(b = 45))).length / 2 = 16

/-- Model of `checkTokenSignature`: destructures `token.split(".")` as
`[tokenPayload, tokenSignature]` (i.e. the first two segments), recomputes
`createHmac("sha256", SECRET_KEY).update(tokenPayload).digest("hex")` and
compares it to `tokenSignature`.  A missing second segment (`undefined`)
never equals the digest string; a missing `SECRET_KEY` throws and is caught,
yielding `false`. -/
def checkTokenSignature (secretKey : Str) (hmac : Str → Str → Str)
    (token : Str) : Bool :=
  if token = [] then false
  else if secretKey = [] then false
  else
    match (splitOn 46 token).get? 1 with
    | none => false
    | some sig => decide (sig = hmac secretKey ((splitOn 46 token).headD []))

/-- Model of `checkRefreshTokenFormat`: requires `checkAPIKeyFormat` (a UUID shape)
and then `checkTokenSignature` on the same string. -/
def checkRefreshTokenFormat (secretKey : Str) (hmac : Str → Str → Str)
    (rt : Str) : Bool :=
  if rt = [] then false
  else checkAPIKeyFormat rt && checkTokenSignature secretKey hmac rt

/-- The Redis session cache: a key/value store.  The `EX` time-to-live
option on refresh entries plays no role in any claim considered here, so
`set` with and without a TTL are modelled identically. -/
structure Cache where
  entries : List (Str × Str)
deriving DecidableEq

/-- Model of `redis.get key`. -/
def cGet (st : Cache) (k : Str) : Option Str :=
  (st.entries.find? (fun e => decide (e.1 = k))).map (fun e => e.2)

/-- Model of `redis.set key value` (last write wins; at most one entry per key). -/
def cSet (st : Cache) (k v : Str) : Cache :=
  ⟨(k, v) :: st.entries.filter (fun e => !(decide (e.1 = k)))⟩

/-- Model of `redis.del key`: the number of keys removed, and the resulting cache. -/
def cDel (st : Cache) (k : Str) : Nat × Cache :=
  (if (cGet st k).isSome then 1 else 0,
   ⟨st.entries.filter (fun e => !(decide (e.1 = k)))⟩)

/-- A row of the `Account` table (`ID`, `Password` hash). -/
structure Account where
  id : Nat
  password : Str
deriving DecidableEq

/-- The `Account` table, keyed by `Email`; the spec guarantees at most one
row per email, so `SELECT ... WHERE Email = ?` is a lookup. -/
abbrev DB := List (Str × Account)

/-- Model of `SELECT ID, Password FROM Account WHERE Email = ?` (first row, if any). -/
def dbLookup (db : DB) (email : Str) : Option Account :=
  (db.find? (fun r => decide (r.1 = email))).map (fun r => r.2)

/-- Model of `JSON.stringify({ userId: id })`. -/
def jsonUserId (id : Nat) : Str :=
  bytes "\x7b\"userId\":" ++ natToDec id ++ bytes "\x7d"

/-- Model of `JSON.stringify({ sessionToken, refreshToken })` for JWT tokens (which
contain no characters needing JSON escaping). -/
def tokenPairJson (sessionToken refreshToken : Str) : Str :=
  bytes "\x7b\"sessionToken\":\"" ++ sessionToken ++
  bytes "\",\"refreshToken\":\"" ++ refreshToken ++ bytes "\"\x7d"

/-- Model of `JSON.parse(s).userId` for the `{"userId":N}` records this service
writes to the cache; `none` models a parse failure (which the service
catches) or a missing field. -/
def jsonParseUserId (s : Str) : Option Nat :=
  let pre := bytes "\x7b\"userId\":"
  if s.take 10 = pre then
    let mid := (s.drop 10).takeWhile isDigitB
    if mid = [] then none
    else if s.drop 10 = mid ++ [125] then
      some (mid.foldl (fun a c => a * 10 + (c - 48)) 0)
    else none
  else none

/-- Model of `createSession(email)`: validates the email format, looks up the
account (a missing row makes `res[0].ID` throw, caught as `false`), mints a
session and a refresh JWT, registers both in the cache, and returns
`JSON.stringify({sessionToken, refreshToken})`. -/
def createSession (secretKey refreshKey : Str)
    (jwtSign : Str → Nat → Str → Str) (db : DB) (st : Cache)
    (email : Str) : Option Str × Cache :=
  if !(checkEmailFormat email) then (none, st)
  else
    match dbLookup db email with
    | none => (none, st)
    | some acc =>
      let sessionToken := jwtSign secretKey acc.id (bytes "15m")
      let refreshToken := jwtSign refreshKey acc.id (bytes "7d")
      let st1 := cSet st (bytes "user_session:" ++ sessionToken)
        (jsonUserId acc.id)
      let st2 := cSet st1 (bytes "user_refresh:" ++ refreshToken)
        (jsonUserId acc.id)
      (some (tokenPairJson sessionToken refreshToken), st2)

/-- Model of `login(email, password)`: format checks, account lookup (`Bad
credentials` on a missing row), `bcrypt.compare` (`Bad credentials` on
mismatch), then `createSession(email)`.  All failures are caught and
surfaced as `false`. -/
def login (secretKey refreshKey : Str) (jwtSign : Str → Nat → Str → Str)
    (bcryptCompare : Str → Str → Bool) (db : DB) (st : Cache)
    (email pw : Str) : Option Str × Cache :=
  if !(checkEmailFormat email) || !(checkPasswordFormat pw) then (none, st)
  else
    match dbLookup db email with
    | none => (none, st)
    | some acc =>
      if !(bcryptCompare pw acc.password) then (none, st)
      else createSession secretKey refreshKey jwtSign db st email

/-- Model of `verifySession(sessionToken)`: true iff `checkTokenSignature` accepts
the token and `redis.get("user_session:" + token)` yields a non-falsy
value. -/
def verifySession (secretKey : Str) (hmac : Str → Str → Str) (st : Cache)
    (token : Str) : Bool :=
  if !(checkTokenSignature secretKey hmac token) then false
  else
    match cGet st (bytes "user_session:" ++ token) with
    | none => false
    | some v => !(v = [])

/-- Model of `deleteSession(sessionToken)`: `redis.del("user_session:" + token)`;
a zero deletion count throws, caught as `false`. -/
def deleteSession (st : Cache) (token : Str) : Bool × Cache :=
  let r := cDel st (bytes "user_session:" ++ token)
  if r.1 = 0 then (false, r.2) else (true, r.2)

/-- Model of `refreshSession(refreshToken)`: fails closed on
`checkRefreshTokenFormat`, on a cache miss for `"user_refresh:" + token`,
on a falsy cache value, on `JSON.parse` failure, or on `jwt.verify`
failure; otherwise mints one new session JWT, registers it under
`"user_session:"`, deletes the old `"user_refresh:"` entry and returns the
new session token.  No new refresh token is minted. -/
def refreshSession (secretKey refreshKey : Str) (hmac : Str → Str → Str)
    (jwtVerifyOk : Str → Str → Bool) (jwtSign : Str → Nat → Str → Str)
    (st : Cache) (rt : Str) : Option Str × Cache :=
  if !(checkRefreshTokenFormat secretKey hmac rt) then (none, st)
  else
    match cGet st (bytes "user_refresh:" ++ rt) with
    | none => (none, st)
    | some sessionData =>
      if sessionData = [] then (none, st)
      else
        match jsonParseUserId sessionData with
        | none => (none, st)
        | some uid =>
          if !(jwtVerifyOk rt refreshKey) then (none, st)
          else
            let newSessionToken := jwtSign secretKey uid (bytes "15m")
            let st1 := cSet st (bytes "user_session:" ++ newSessionToken)
              sessionData
            let st2 := (cDel st1 (bytes "user_refresh:" ++ rt)).2
            (some newSessionToken, st2)

/-- Model of `generateMagicToken(email)`:
`base64(email) . issuedAt . issuedAt+900000 . hmac(MAGIC_SIGNIN_KEY, data)`
with `data` the first three dot-joined fields; empty email or key yields
the empty string.  `now` is `Date.now()` in milliseconds. -/
def generateMagicToken (magicKey : Str) (hmac : Str → Str → Str)
    (email : Str) (now : Nat) : Str :=
  if email = [] || magicKey = [] then []
  else
    let encodedEmail := base64Encode email
    let issuedAt := now
    let expiresAt := issuedAt + 900000
    let data := encodedEmail ++ [46] ++ natToDec issuedAt ++ [46] ++
      natToDec expiresAt
    let hash := hmac magicKey data
    data ++ [46] ++ hash

/-- Model of `Date.now() > parseInt(expiresAt, 10)`: false when the parse yields
`NaN`. -/
def expiredCheck (now : Nat) (expSeg : Str) : Bool :=
  match parseIntB expSeg with
  | none => false
  | some v => decide (v < (now : Int))

/-- Model of `verifyMagicToken(token)`: requires exactly four dot-separated
segments, rejects when `Date.now() > parseInt(expiresAt, 10)`, recomputes
the HMAC over the first three dot-joined segments, and on an exact hash
match returns the base64-decoded email. -/
def verifyMagicToken (magicKey : Str) (hmac : Str → Str → Str)
    (token : Str) (now : Nat) : Option Str :=
  if token = [] then none
  else
    match splitOn 46 token with
    | [encodedEmail, issuedAt, expiresAt, hash] =>
      if expiredCheck now expiresAt then none
      else
        let data := encodedEmail ++ [46] ++ issuedAt ++ [46] ++ expiresAt
        if hash = hmac magicKey data then some (base64Decode encodedEmail)
        else none
    | _ => none

/-- Assumption that `jwt.sign` produces the JWT compact serialization: three dot-free
base64url segments joined by dots, whose middle (payload) segment is the
base64url of a JSON object — so it starts with the bytes of `"eyJ"`; in
particular its second byte is `y` (121), which is not a hex character. -/
def JwtShaped (jwtSign : Str → Nat → Str → Str) : Prop :=
  ∀ k u e, ∃ hd p sg, jwtSign k u e = hd ++ 46 :: (p ++ 46 :: sg) ∧
    (46 : Nat) ∉ hd ∧ (46 : Nat) ∉ p ∧ (46 : Nat) ∉ sg ∧
    p.get? 1 = some 121

/-- The dot-joined data covered by the magic-link HMAC:
`base64(email) . issuedAt . issuedAt+900000`. -/
def magicData (email : Str) (t0 : Nat) : Str :=
  base64Encode email ++ [46] ++ natToDec t0 ++ [46] ++ natToDec (t0 + 900000)

/-- The four segments of a generated magic-link token. -/
def magicSegs (magicKey : Str) (hmac : Str → Str → Str) (email : Str)
    (t0 : Nat) : List Str :=
  [base64Encode email, natToDec t0, natToDec (t0 + 900000),
   hmac magicKey (magicData email t0)]

/-- A sample digest function: constant `"00"`. -/
def hmacZeros : Str → Str → Str := fun _ _ => [48, 48]

/-- A sample JWT signer: the constant compact serialization
`"eyJh.eyJ1.sig"`. -/
def jwtConst : Str → Nat → Str → Str := fun _ _ _ => bytes "eyJh.eyJ1.sig"

/-- A sample account table with one row. -/
def dbSample : DB := [(bytes "a@b.c", ⟨1, bytes "hash"⟩)]

/-- The empty session cache. -/
def cacheEmpty : Cache := ⟨[]⟩

/-- A credential verifier that always reports a mismatch. -/
def bcFalse : Str → Str → Bool := fun _ _ => false

/-- A jwt.verify model that always succeeds. -/
def jvTrue : Str → Str → Bool := fun _ _ => true

/-- A sample digest function that distinguishes the magic data of the
witness token from every other input: it is injective at that point and
produces only hex bytes. -/
def hmacPick : Str → Str → Str :=
  fun _ d => if d = magicData [97] 0 then [48, 48] else [102, 102]

/-! ## Theorems -/

theorem splitOn_ne_nil (sep : Nat) (s : Str) : splitOn sep s ≠ [] := by
  induction s with
  | nil => simp [splitOn]
  | cons b r ih =>
    simp only [splitOn]
    split
    · simp
    · split
      · simp
      · simp

theorem splitOn_of_not_mem (sep : Nat) (s : Str) (h : sep ∉ s) :
    splitOn sep s = [s] := by
  induction s with
  | nil => simp [splitOn]
  | cons b r ih =>
    simp only [List.mem_cons, not_or] at h
    simp only [splitOn, if_neg (Ne.symm h.1), ih h.2]

theorem splitOn_append_sep (sep : Nat) (p r : Str) (h : sep ∉ p) :
    splitOn sep (p ++ sep :: r) = p :: splitOn sep r := by
  induction p with
  | nil => simp [splitOn]
  | cons b q ih =>
    simp only [List.mem_cons, not_or] at h
    simp only [List.cons_append, splitOn, if_neg (Ne.symm h.1),
      List.append_eq, ih h.2]

theorem splitOn_joinSep (sep : Nat) (parts : List Str) (hne : parts ≠ [])
    (h : ∀ p ∈ parts, sep ∉ p) :
    splitOn sep (joinSep sep parts) = parts := by
  induction parts with
  | nil => exact absurd rfl hne
  | cons p ps ih =>
    cases ps with
    | nil => exact splitOn_of_not_mem sep p (h p (by simp))
    | cons q qs =>
      have hp : sep ∉ p := h p (by simp)
      simp only [joinSep, splitOn_append_sep sep p _ hp]
      rw [ih (by simp) (fun x hx => h x (List.mem_cons_of_mem _ hx))]

theorem joinSep_splitOn (sep : Nat) (s : Str) :
    joinSep sep (splitOn sep s) = s := by
  induction s with
  | nil => simp [splitOn, joinSep]
  | cons b r ih =>
    simp only [splitOn]
    rcases hr : splitOn sep r with _ | ⟨s0, ss⟩
    · exact absurd hr (splitOn_ne_nil sep r)
    · rw [hr] at ih
      split
      · subst b
        cases ss <;> simp_all [joinSep]
      · cases ss <;> simp_all [joinSep]

theorem mem_joinSep {c : Nat} {sep : Nat} {parts : List Str}
    (h : c ∈ joinSep sep parts) : c = sep ∨ ∃ p ∈ parts, c ∈ p := by
  induction parts with
  | nil => simp [joinSep] at h
  | cons p ps ih =>
    cases ps with
    | nil =>
      simp only [joinSep] at h
      exact Or.inr ⟨p, by simp, h⟩
    | cons q qs =>
      simp only [joinSep, List.mem_append, List.mem_cons] at h
      rcases h with h | h | h
      · exact Or.inr ⟨p, by simp, h⟩
      · exact Or.inl h
      · rcases ih h with h' | ⟨x, hx, hcx⟩
        · exact Or.inl h'
        · exact Or.inr ⟨x, List.mem_cons_of_mem _ hx, hcx⟩

theorem b64Val_b64Char : ∀ n, n < 64 → b64Val (b64Char n) = some n := by
  decide

theorem b64Char_ne_46 : ∀ n, n < 64 → b64Char n ≠ 46 := by decide

theorem base64Encode_not_mem_46 (s : Str) (hb : ∀ b ∈ s, b < 256) :
    (46 : Nat) ∉ base64Encode s := by
  induction s using base64Encode.induct with
  | case1 => simp [base64Encode]
  | case2 a =>
    have ha : a < 256 := hb a (by simp)
    simp only [base64Encode, List.mem_cons, not_or]
    refine ⟨Ne.symm (b64Char_ne_46 _ (by omega)),
      Ne.symm (b64Char_ne_46 _ (by omega)), by omega, by omega, by simp⟩
  | case3 a b =>
    have ha : a < 256 := hb a (by simp)
    have hb' : b < 256 := hb b (by simp)
    simp only [base64Encode, List.mem_cons, not_or]
    refine ⟨Ne.symm (b64Char_ne_46 _ (by omega)),
      Ne.symm (b64Char_ne_46 _ (by omega)),
      Ne.symm (b64Char_ne_46 _ (by omega)), by omega, by simp⟩
  | case4 a b c r ih =>
    have ha : a < 256 := hb a (by simp)
    have hb' : b < 256 := hb b (by simp)
    have hc : c < 256 := hb c (by simp)
    have hr : ∀ x ∈ r, x < 256 := fun x hx => hb x (by simp [hx])
    simp only [base64Encode, List.mem_cons, not_or]
    refine ⟨Ne.symm (b64Char_ne_46 _ (by omega)),
      Ne.symm (b64Char_ne_46 _ (by omega)),
      Ne.symm (b64Char_ne_46 _ (by omega)),
      Ne.symm (b64Char_ne_46 _ (by omega)), ih hr⟩

theorem base64Encode_ne_nil (s : Str) (h : s ≠ []) : base64Encode s ≠ [] := by
  match s with
  | [a] => simp [base64Encode]
  | [a, b] => simp [base64Encode]
  | a :: b :: c :: r => simp [base64Encode]

theorem base64_roundtrip :
    ∀ s : Str, (∀ b ∈ s, b < 256) → base64Decode (base64Encode s) = s
  | [], _ => rfl
  | [a], hb => by
    have ha : a < 256 := hb a (by simp)
    simp only [base64Encode, base64Decode, List.filterMap,
      b64Val_b64Char _ (by omega : a / 4 < 64),
      b64Val_b64Char _ (by omega : a % 4 * 16 < 64)]
    have h61 : b64Val 61 = none := by decide
    simp only [h61, b64DecGroups]
    congr 1
    omega
  | [a, b], hb => by
    have ha : a < 256 := hb a (by simp)
    have hb' : b < 256 := hb b (by simp)
    simp only [base64Encode, base64Decode, List.filterMap,
      b64Val_b64Char _ (by omega : a / 4 < 64),
      b64Val_b64Char _ (by omega : a % 4 * 16 + b / 16 < 64),
      b64Val_b64Char _ (by omega : b % 16 * 4 < 64)]
    have h61 : b64Val 61 = none := by decide
    simp only [h61, b64DecGroups]
    congr 1
    · omega
    · congr 1
      omega
  | a :: b :: c :: r, hb => by
    have ha : a < 256 := hb a (by simp)
    have hb' : b < 256 := hb b (by simp)
    have hc : c < 256 := hb c (by simp)
    have hr : ∀ x ∈ r, x < 256 := fun x hx => hb x (by simp [hx])
    have ih := base64_roundtrip r hr
    simp only [base64Encode, base64Decode, List.filterMap,
      b64Val_b64Char _ (by omega : a / 4 < 64),
      b64Val_b64Char _ (by omega : a % 4 * 16 + b / 16 < 64),
      b64Val_b64Char _ (by omega : b % 16 * 4 + c / 64 < 64),
      b64Val_b64Char _ (by omega : c % 64 < 64)]
    simp only [b64DecGroups]
    simp only [base64Decode] at ih
    rw [ih]
    congr 1
    · omega
    · congr 1
      · omega
      · congr 1
        omega

theorem natToDecAux_digits :
    ∀ f n, ∀ b ∈ natToDecAux f n, 48 ≤ b ∧ b ≤ 57 := by
  intro f
  induction f with
  | zero => intro n b hb; simp [natToDecAux] at hb
  | succ f ih =>
    intro n b hb
    simp only [natToDecAux] at hb
    split at hb
    · simp at hb
    · simp only [List.mem_append, List.mem_cons] at hb
      rcases hb with hb | hb
      · exact ih _ b hb
      · simp at hb
        omega

theorem natToDec_digits (n : Nat) : ∀ b ∈ natToDec n, 48 ≤ b ∧ b ≤ 57 := by
  intro b hb
  simp only [natToDec] at hb
  split at hb
  · simp at hb; omega
  · exact natToDecAux_digits _ _ b hb

theorem natToDec_not_mem_46 (n : Nat) : (46 : Nat) ∉ natToDec n := by
  intro h
  have := natToDec_digits n 46 h
  omega

theorem natToDec_ne_nil (n : Nat) : natToDec n ≠ [] := by
  simp only [natToDec]
  split
  · simp
  · simp only [natToDecAux]
    rw [if_neg (by assumption)]
    simp

theorem natToDecAux_foldl :
    ∀ f n (a : Int), n ≤ f →
      (natToDecAux f n).foldl digitStep a =
        a * 10 ^ (natToDecAux f n).length + n
  | 0, n, a, hn => by
    interval_cases n
    simp [natToDecAux]
  | f + 1, n, a, hn => by
    by_cases h0 : n = 0
    · subst h0; simp [natToDecAux]
    · have hstep : n / 10 ≤ f := by omega
      have ih := natToDecAux_foldl f (n / 10) a hstep
      simp only [natToDecAux, if_neg h0, List.foldl_append,
        List.length_append, ih]
      simp only [List.foldl_cons, List.foldl_nil, List.length_cons,
        List.length_nil, digitStep]
      have hn10 : (n : Int) = 10 * ((n / 10 : Nat) : Int) +
          ((n % 10 : Nat) : Int) := by
        push_cast
        omega
      have hp : ((48 + n % 10 : Nat) : Int) = 48 + ((n % 10 : Nat) : Int) := by
        push_cast
        ring
      rw [hp, pow_succ, hn10]
      ring

theorem takeWhile_all {p : Nat → Bool} :
    ∀ l : Str, (∀ b ∈ l, p b = true) → l.takeWhile p = l := by
  intro l h
  induction l with
  | nil => rfl
  | cons b r ih =>
    rw [List.takeWhile_cons, if_pos (h b (by simp)),
      ih (fun x hx => h x (by simp [hx]))]

theorem parseIntB_natToDec (n : Nat) :
    parseIntB (natToDec n) = some (n : Int) := by
  by_cases h0 : n = 0
  · subst h0; decide
  · have hdig := natToDec_digits n
    have hne := natToDec_ne_nil n
    rcases hl : natToDec n with _ | ⟨c, r⟩
    · exact absurd hl hne
    · have hcd : 48 ≤ c ∧ c ≤ 57 := hdig c (by rw [hl]; simp)
      have hdrop : (c :: r).dropWhile isWsB = c :: r := by
        rw [List.dropWhile_cons, if_neg]
        simp [isWsB]
        omega
      have htake : (c :: r).takeWhile isDigitB = c :: r := by
        apply takeWhile_all
        intro b hb
        have := hdig b (by rw [hl]; exact hb)
        simp [isDigitB]
        omega
      simp only [parseIntB, hdrop, if_neg (by omega : ¬ c = 43),
        if_neg (by omega : ¬ c = 45), parsePosB, htake]
      rw [if_neg (by simp)]
      rw [← hl]
      simp only [natToDec, if_neg h0]
      rw [natToDecAux_foldl (n + 1) n 0 (by omega)]
      simp

theorem HexOutput.not_mem_46 {hmac : Str → Str → Str} (h : HexOutput hmac)
    (k d : Str) : (46 : Nat) ∉ hmac k d := by
  intro hm
  rcases h k d 46 hm with h' | h' <;> omega

theorem checkAPIKeyFormat_not_mem_46 (s : Str)
    (h : checkAPIKeyFormat s = true) : (46 : Nat) ∉ s := by
  intro hmem
  simp only [checkAPIKeyFormat] at h
  split at h
  · exact absurd h (by simp)
  · split at h
    · exact absurd h (by simp)
    · split at h
      · exact absurd h (by simp)
      · rename_i h1 h2 huuid
        rw [Bool.not_eq_true', Bool.not_eq_false] at huuid
        simp only [uuidShape] at huuid
        rcases hsp : splitOn 45 s with _ | ⟨a, t1⟩ <;> rw [hsp] at huuid
        · simp at huuid
        · rcases t1 with _ | ⟨b, t2⟩
          · simp at huuid
          · rcases t2 with _ | ⟨c, t3⟩
            · simp at huuid
            · rcases t3 with _ | ⟨d, t4⟩
              · simp at huuid
              · rcases t4 with _ | ⟨e, t5⟩
                · simp at huuid
                · rcases t5 with _ | ⟨x, t6⟩
                  · simp only [Bool.and_eq_true, decide_eq_true_eq,
                      List.all_eq_true] at huuid
                    have hs : s = joinSep 45 [a, b, c, d, e] := by
                      rw [← hsp, joinSep_splitOn]
                    rw [hs] at hmem
                    rcases mem_joinSep hmem with h46 | ⟨p, hp, hmp⟩
                    · omega
                    · have hhex := huuid.2 46 (by
                        simp only [List.mem_cons] at hp
                        simp only [List.mem_append]
                        rcases hp with rfl | rfl | rfl | rfl | rfl | h'
                        · exact Or.inl (Or.inl (Or.inl (Or.inl hmp)))
                        · exact Or.inl (Or.inl (Or.inl (Or.inr hmp)))
                        · exact Or.inl (Or.inl (Or.inr hmp))
                        · exact Or.inl (Or.inr hmp)
                        · exact Or.inr hmp
                        · simp at h')
                      simp only [isHexDigitCI, Bool.or_eq_true,
                        Bool.and_eq_true, decide_eq_true_eq] at hhex
                      omega
                  · simp at huuid

theorem checkRefreshTokenFormat_false (secretKey : Str)
    (hmac : Str → Str → Str) (rt : Str) :
    checkRefreshTokenFormat secretKey hmac rt = false := by
  simp only [checkRefreshTokenFormat]
  split
  · rfl
  · rcases hapi : checkAPIKeyFormat rt with _ | _
    · simp
    · have hno46 := checkAPIKeyFormat_not_mem_46 rt hapi
      have hsp : splitOn 46 rt = [rt] := splitOn_of_not_mem 46 rt hno46
      simp only [checkTokenSignature, hsp]
      simp

theorem refreshSession_const (secretKey refreshKey : Str)
    (hmac : Str → Str → Str) (jwtVerifyOk : Str → Str → Bool)
    (jwtSign : Str → Nat → Str → Str) (st : Cache) (rt : Str) :
    refreshSession secretKey refreshKey hmac jwtVerifyOk jwtSign st rt =
      (none, st) := by
  simp [refreshSession, checkRefreshTokenFormat_false]

theorem checkTokenSignature_jwt_false (secretKey : Str)
    (hmac : Str → Str → Str) (hd p sg : Str) (hh : HexOutput hmac)
    (h1 : (46 : Nat) ∉ hd) (h2 : (46 : Nat) ∉ p) (h3 : (46 : Nat) ∉ sg)
    (hp1 : p.get? 1 = some 121) :
    checkTokenSignature secretKey hmac (hd ++ 46 :: (p ++ 46 :: sg)) =
      false := by
  have htok : hd ++ 46 :: (p ++ 46 :: sg) ≠ [] := by
    cases hd <;> simp
  have hsp : splitOn 46 (hd ++ 46 :: (p ++ 46 :: sg)) = [hd, p, sg] := by
    have := splitOn_joinSep 46 [hd, p, sg] (by simp) (by
      intro q hq
      simp only [List.mem_cons] at hq
      rcases hq with rfl | rfl | rfl | h'
      · exact h1
      · exact h2
      · exact h3
      · simp at h')
    simpa [joinSep] using this
  simp only [checkTokenSignature, if_neg htok, hsp]
  by_cases hsk : secretKey = []
  · simp [hsk]
  · rw [if_neg hsk]
    simp only [List.get?, List.headD]
    rw [decide_eq_false]
    intro heq
    have hmem : (121 : Nat) ∈ p := by
      have := List.get?_mem hp1
      exact this
    rw [heq] at hmem
    rcases hh secretKey hd 121 hmem with h' | h' <;> omega

theorem joinSep_four (sep : Nat) (a b c d : Str) :
    joinSep sep [a, b, c, d] = a ++ sep :: (b ++ sep :: (c ++ sep :: d)) :=
  rfl

theorem append_assoc_four (e i x h : Str) :
    e ++ [46] ++ i ++ [46] ++ x ++ [46] ++ h =
      e ++ 46 :: (i ++ 46 :: (x ++ 46 :: h)) := by
  simp [List.append_assoc]

theorem generateMagicToken_eq (magicKey : Str) (hmac : Str → Str → Str)
    (email : Str) (now : Nat) (he : email ≠ []) (hk : magicKey ≠ []) :
    generateMagicToken magicKey hmac email now =
      joinSep 46 (magicSegs magicKey hmac email now) := by
  have h1 : generateMagicToken magicKey hmac email now =
      magicData email now ++ [46] ++ hmac magicKey (magicData email now) := by
    rw [generateMagicToken, if_neg (by simp [he, hk])]
    rfl
  rw [h1, magicSegs, joinSep_four, magicData]
  exact append_assoc_four (base64Encode email) (natToDec now)
    (natToDec (now + 900000))
    (hmac magicKey (base64Encode email ++ [46] ++ natToDec now ++ [46] ++
      natToDec (now + 900000)))

theorem verifyMagicToken_parts (magicKey : Str) (hmac : Str → Str → Str)
    (e i x h : Str) (now : Nat) (he : (46 : Nat) ∉ e) (hi : (46 : Nat) ∉ i)
    (hx : (46 : Nat) ∉ x) (hh : (46 : Nat) ∉ h) :
    verifyMagicToken magicKey hmac (joinSep 46 [e, i, x, h]) now =
      if expiredCheck now x then none
      else if h = hmac magicKey (e ++ [46] ++ i ++ [46] ++ x) then
        some (base64Decode e)
      else none := by
  have hne : joinSep 46 [e, i, x, h] ≠ [] := by
    simp only [joinSep]
    cases e <;> simp
  have hsp : splitOn 46 (joinSep 46 [e, i, x, h]) = [e, i, x, h] :=
    splitOn_joinSep 46 [e, i, x, h] (by simp) (by
      intro q hq
      simp only [List.mem_cons] at hq
      rcases hq with rfl | rfl | rfl | rfl | h'
      · exact he
      · exact hi
      · exact hx
      · exact hh
      · simp at h')
  simp only [verifyMagicToken, if_neg hne, hsp]

theorem mem_of_mem_set :
    ∀ (l : Str) (i a b : Nat), b ∈ l.set i a → b ∈ l ∨ b = a := by
  intro l
  induction l with
  | nil => intro i a b h; simp at h
  | cons x r ih =>
    intro i a b h
    cases i with
    | zero =>
      simp only [List.set, List.mem_cons] at h
      rcases h with rfl | h
      · exact Or.inr rfl
      · exact Or.inl (List.mem_cons_of_mem _ h)
    | succ i =>
      simp only [List.set, List.mem_cons] at h
      rcases h with rfl | h
      · exact Or.inl (by simp)
      · rcases ih i a b h with h' | h'
        · exact Or.inl (List.mem_cons_of_mem _ h')
        · exact Or.inr h'

theorem set_ne_self :
    ∀ (l : Str) (i c : Nat), i < l.length → c ≠ l.getD i 0 →
      l.set i c ≠ l := by
  intro l
  induction l with
  | nil => intro i c hi; simp at hi
  | cons x r ih =>
    intro i c hi hc
    cases i with
    | zero =>
      simp only [List.set]
      intro h
      exact hc (by simpa using congrArg (fun t => t.getD 0 0) h)
    | succ i =>
      simp only [List.set]
      intro h
      have hr : r.set i c = r := by simpa using h
      exact ih i c (by simpa using hi) (by simpa [List.getD] using hc) hr

theorem find?_filter_ne_none (l : List (Str × Str)) (k : Str) :
    (l.filter (fun e => !(decide (e.1 = k)))).find?
      (fun e => decide (e.1 = k)) = none := by
  induction l with
  | nil => rfl
  | cons e r ih =>
    by_cases hek : e.1 = k
    · simp [List.filter_cons, hek, ih]
    · simp [List.filter_cons, hek, List.find?_cons, ih]

/-- C1: the spec claims that for every account with a valid email in the
account store, `createSession(email)` followed by `verifySession` on the
returned access token yields `true`.  On the code this fails:
`createSession` succeeds and registers the session, but `verifySession`
rejects the very token it minted, because `checkTokenSignature`
destructures `token.split(".")` as `[tokenPayload, tokenSignature]` — the
JWT header and payload — and compares the base64url payload segment
against a hex HMAC of the header segment, which can never match (the
payload segment of a JSON payload starts with the bytes of `"eyJ"`). -/
theorem createSession_then_verifySession_false
    (secretKey refreshKey : Str) (hmac : Str → Str → Str)
    (jwtSign : Str → Nat → Str → Str) (db : DB) (st : Cache)
    (email : Str) (acc : Account)
    (hh : HexOutput hmac) (hj : JwtShaped jwtSign)
    (hemail : checkEmailFormat email = true)
    (hdb : dbLookup db email = some acc) :
    (createSession secretKey refreshKey jwtSign db st email).1 =
      some (tokenPairJson (jwtSign secretKey acc.id (bytes "15m"))
        (jwtSign refreshKey acc.id (bytes "7d"))) ∧
    verifySession secretKey hmac
      (createSession secretKey refreshKey jwtSign db st email).2
      (jwtSign secretKey acc.id (bytes "15m")) = false := by
  constructor
  · simp [createSession, hemail, hdb]
  · obtain ⟨hd, p, sg, heq, hn1, hn2, hn3, hp1⟩ :=
      hj secretKey acc.id (bytes "15m")
    rw [heq, verifySession,
      checkTokenSignature_jwt_false secretKey hmac hd p sg hh hn1 hn2 hn3 hp1]
    simp

/-- C2: the spec claims `refreshSession` on a refresh token issued by
`createSession` succeeds exactly once.  On the code even the first call
fails: `checkRefreshTokenFormat` demands a 36-character UUID shape (which
contains no dot), and then `checkTokenSignature` on that same string reads
an `undefined` second dot-segment, so the format check rejects every
string and `refreshSession` returns `false` without touching the cache. -/
theorem refreshSession_first_call_fails
    (secretKey refreshKey : Str) (hmac : Str → Str → Str)
    (jwtVerifyOk : Str → Str → Bool) (jwtSign : Str → Nat → Str → Str)
    (db : DB) (st : Cache) (email : Str) (acc : Account)
    (hemail : checkEmailFormat email = true)
    (hdb : dbLookup db email = some acc) :
    refreshSession secretKey refreshKey hmac jwtVerifyOk jwtSign
      (createSession secretKey refreshKey jwtSign db st email).2
      (jwtSign refreshKey acc.id (bytes "7d")) =
      (none, (createSession secretKey refreshKey jwtSign db st email).2) :=
  refreshSession_const secretKey refreshKey hmac jwtVerifyOk jwtSign
    (createSession secretKey refreshKey jwtSign db st email).2
    (jwtSign refreshKey acc.id (bytes "7d"))

/-- C6: `login` with an unknown identifier and `login` with a known
identifier but wrong secret both return the bare failure `false` with the
cache untouched — identical observable results, no enumeration signal. -/
theorem login_unknown_and_wrong_secret_identical
    (secretKey refreshKey : Str) (jwtSign : Str → Nat → Str → Str)
    (bcryptCompare : Str → Str → Bool) (db : DB) (st : Cache)
    (emailA pwA emailB pwB : Str) (acc : Account)
    (hA : dbLookup db emailA = none)
    (hB : dbLookup db emailB = some acc)
    (hpw : bcryptCompare pwB acc.password = false) :
    login secretKey refreshKey jwtSign bcryptCompare db st emailA pwA =
      (none, st) ∧
    login secretKey refreshKey jwtSign bcryptCompare db st emailB pwB =
      (none, st) := by
  constructor
  · unfold login
    split
    · rfl
    · simp [hA]
  · unfold login
    split
    · rfl
    · simp [hB, hpw]

/-- C7: the spec claims `refreshSession` fails closed on a bad structural
check or cache miss and otherwise rotates.  On the code the "otherwise"
branch is unreachable: `checkRefreshTokenFormat` returns `false` for every
input string (UUID shape excludes dots, and the signature check then reads
a missing second dot-segment), so `refreshSession` returns `false` and
leaves the cache unchanged for every input. -/
theorem refreshSession_always_fails
    (secretKey refreshKey : Str) (hmac : Str → Str → Str)
    (jwtVerifyOk : Str → Str → Bool) (jwtSign : Str → Nat → Str → Str)
    (st : Cache) (rt : Str) :
    refreshSession secretKey refreshKey hmac jwtVerifyOk jwtSign st rt =
      (none, st) := by
  simp [refreshSession, checkRefreshTokenFormat_false]

/-- C8: `deleteSession` succeeds exactly when a cache entry for the token
existed (and was removed); deleting an absent entry reports failure, and
the resulting cache never holds the key. -/
theorem deleteSession_success_iff (st : Cache) (token : Str) :
    (deleteSession st token).1 =
      (cGet st (bytes "user_session:" ++ token)).isSome ∧
    cGet (deleteSession st token).2 (bytes "user_session:" ++ token) =
      none ∧
    (deleteSession st token).2.entries =
      st.entries.filter
        (fun e => !(decide (e.1 = bytes "user_session:" ++ token))) := by
  refine ⟨?_, ?_, ?_⟩
  · simp only [deleteSession, cDel]
    rcases h : (cGet st (bytes "user_session:" ++ token)).isSome with _ | _
    · simp [h]
    · simp [h]
  · simp only [deleteSession, cDel]
    split <;> simp [cGet, find?_filter_ne_none]
  · simp only [deleteSession, cDel]
    split <;> rfl

/-- C9: whenever `login` returns `false` — bad formats, unknown email, or
`bcrypt` mismatch — the session cache is left exactly as it was: the only
cache writes are in `createSession`, reached only after every credential
check has passed. -/
theorem login_failure_leaves_cache_unchanged
    (secretKey refreshKey : Str) (jwtSign : Str → Nat → Str → Str)
    (bcryptCompare : Str → Str → Bool) (db : DB) (st : Cache)
    (email pw : Str)
    (hfail : (login secretKey refreshKey jwtSign bcryptCompare db st
      email pw).1 = none) :
    (login secretKey refreshKey jwtSign bcryptCompare db st email pw).2 =
      st := by
  by_cases h1 : (!(checkEmailFormat email) || !(checkPasswordFormat pw)) =
      true
  · unfold login
    rw [if_pos h1]
  · unfold login at hfail ⊢
    rw [if_neg h1] at hfail ⊢
    cases hdb : dbLookup db email with
    | none => simp [hdb]
    | some acc =>
      simp only [hdb] at hfail ⊢
      by_cases h2 : (!(bcryptCompare pw acc.password)) = true
      · rw [if_pos h2]
      · rw [if_neg h2] at hfail ⊢
        exfalso
        have hef : checkEmailFormat email = true := by
          simp only [Bool.or_eq_true, Bool.not_eq_true'] at h1
          push_neg at h1
          simpa using h1.1
        simp [createSession, hef, hdb] at hfail

theorem append_assoc_three (e i x : Str) :
    e ++ [46] ++ i ++ [46] ++ x = e ++ 46 :: (i ++ 46 :: x) := by
  simp [List.append_assoc]

theorem joinSep_three (sep : Nat) (a b c : Str) :
    joinSep sep [a, b, c] = a ++ sep :: (b ++ sep :: c) := rfl

theorem magic_data_ne (e' i' x' e i x : Str)
    (h1 : (46 : Nat) ∉ e') (h2 : (46 : Nat) ∉ i') (h3 : (46 : Nat) ∉ x')
    (h4 : (46 : Nat) ∉ e) (h5 : (46 : Nat) ∉ i) (h6 : (46 : Nat) ∉ x)
    (hne : ¬(e' = e ∧ i' = i ∧ x' = x)) :
    e' ++ [46] ++ i' ++ [46] ++ x' ≠ e ++ [46] ++ i ++ [46] ++ x := by
  intro h
  rw [append_assoc_three, append_assoc_three, ← joinSep_three,
    ← joinSep_three] at h
  have h' := congrArg (splitOn 46) h
  rw [splitOn_joinSep 46 [e', i', x'] (by simp) (by
      intro q hq
      simp only [List.mem_cons] at hq
      rcases hq with rfl | rfl | rfl | hq'
      · exact h1
      · exact h2
      · exact h3
      · simp at hq'),
    splitOn_joinSep 46 [e, i, x] (by simp) (by
      intro q hq
      simp only [List.mem_cons] at hq
      rcases hq with rfl | rfl | rfl | hq'
      · exact h4
      · exact h5
      · exact h6
      · simp at hq')] at h'
  simp only [List.cons.injEq, and_true] at h'
  exact hne ⟨h'.1, h'.2.1, h'.2.2⟩

theorem expiredCheck_natToDec_false (now t : Nat) (h : now ≤ t) :
    expiredCheck now (natToDec t) = false := by
  simp only [expiredCheck, parseIntB_natToDec]
  exact decide_eq_false (by push_cast; omega)

theorem expiredCheck_natToDec_true (now t : Nat) (h : t < now) :
    expiredCheck now (natToDec t) = true := by
  simp only [expiredCheck, parseIntB_natToDec]
  exact decide_eq_true (by push_cast; omega)

/-- C3: the magic-link round trip: for any non-empty email and any issue
time `t0`, redeeming the generated token at the same time `t0` with the
same signing key returns exactly the original email. -/
theorem magicToken_roundtrip
    (magicKey : Str) (hmac : Str → Str → Str) (email : Str) (t0 : Nat)
    (hh : HexOutput hmac) (hb : ∀ b ∈ email, b < 256)
    (he : email ≠ []) (hk : magicKey ≠ []) :
    verifyMagicToken magicKey hmac
      (generateMagicToken magicKey hmac email t0) t0 = some email := by
  rw [generateMagicToken_eq magicKey hmac email t0 he hk, magicSegs,
    verifyMagicToken_parts magicKey hmac _ _ _ _ t0
      (base64Encode_not_mem_46 email hb) (natToDec_not_mem_46 t0)
      (natToDec_not_mem_46 (t0 + 900000)) (hh.not_mem_46 _ _),
    expiredCheck_natToDec_false t0 (t0 + 900000) (by omega)]
  rw [if_neg (by simp), if_pos (by rw [magicData]),
    base64_roundtrip email hb]

/-- C4: expiry is enforced: redeeming a token issued at `t0` at time
`t0 + 901000` ms fails, since the embedded expiry is `t0 + 900000` and
`verifyMagicToken` rejects tokens whose `expiresAt` is strictly in the
past. -/
theorem magicToken_expired_rejected
    (magicKey : Str) (hmac : Str → Str → Str) (email : Str) (t0 : Nat)
    (hh : HexOutput hmac) (hb : ∀ b ∈ email, b < 256)
    (he : email ≠ []) (hk : magicKey ≠ []) :
    verifyMagicToken magicKey hmac
      (generateMagicToken magicKey hmac email t0) (t0 + 901000) = none := by
  rw [generateMagicToken_eq magicKey hmac email t0 he hk, magicSegs,
    verifyMagicToken_parts magicKey hmac _ _ _ _ (t0 + 901000)
      (base64Encode_not_mem_46 email hb) (natToDec_not_mem_46 t0)
      (natToDec_not_mem_46 (t0 + 900000)) (hh.not_mem_46 _ _),
    expiredCheck_natToDec_true (t0 + 901000) (t0 + 900000) (by omega)]
  rw [if_pos rfl]

/-- C10: `verifyMagicToken` never inspects the `issuedAt` segment beyond
its inclusion in the HMAC input: any four-part token whose hash matches
the HMAC of its first three dot-joined segments and whose `expiresAt` is
not in the past redeems successfully, for an arbitrary `issuedAt` segment
(including one in the future or beyond the expiry). -/
theorem verifyMagicToken_ignores_issuedAt
    (magicKey : Str) (hmac : Str → Str → Str) (e i x : Str) (now : Nat)
    (hh : HexOutput hmac)
    (he : (46 : Nat) ∉ e) (hi : (46 : Nat) ∉ i) (hx : (46 : Nat) ∉ x)
    (hexp : expiredCheck now x = false) :
    verifyMagicToken magicKey hmac
      (joinSep 46 [e, i, x, hmac magicKey (e ++ [46] ++ i ++ [46] ++ x)])
      now = some (base64Decode e) := by
  rw [verifyMagicToken_parts magicKey hmac e i x _ now he hi hx
    (hh.not_mem_46 _ _), hexp]
  simp

theorem replace_one_ne (u v : Str) (b b' : Nat) (hbb : b' ≠ b) :
    u ++ b' :: v ≠ u ++ b :: v := by
  intro h
  have h' := List.append_cancel_left h
  simp only [List.cons.injEq] at h'
  exact hbb h'.1

theorem replace_one_not_mem (u v : Str) (b b' s : Nat)
    (hs : s ∉ u ++ b :: v) (hsb : s ≠ b') : s ∉ u ++ b' :: v := by
  simp only [List.mem_append, List.mem_cons, not_or] at hs ⊢
  exact ⟨hs.1, hsb, hs.2.2⟩

theorem tamperSeg0
    (magicKey : Str) (hmac : Str → Str → Str) (email : Str)
    (t0 now : Nat) (u v : Str) (b b' : Nat)
    (hh : HexOutput hmac) (hb : ∀ x ∈ email, x < 256)
    (hnow : now ≤ t0 + 900000)
    (hinj : ∀ d, d ≠ magicData email t0 →
      hmac magicKey d ≠ hmac magicKey (magicData email t0))
    (hseg : base64Encode email = u ++ b :: v)
    (hb46 : b' ≠ 46) (hbb : b' ≠ b) :
    verifyMagicToken magicKey hmac
      (joinSep 46 [u ++ b' :: v, natToDec t0, natToDec (t0 + 900000),
        hmac magicKey (magicData email t0)]) now = none := by
  have hE := base64Encode_not_mem_46 email hb
  have hI := natToDec_not_mem_46 t0
  have hX := natToDec_not_mem_46 (t0 + 900000)
  have hH := hh.not_mem_46 magicKey (magicData email t0)
  have hE' : (46 : Nat) ∉ u ++ b' :: v :=
    replace_one_not_mem u v b b' 46 (hseg ▸ hE) (Ne.symm hb46)
  rw [verifyMagicToken_parts magicKey hmac _ _ _ _ now hE' hI hX hH,
    expiredCheck_natToDec_false now (t0 + 900000) hnow]
  rw [if_neg (by simp), if_neg]
  intro heq
  refine hinj (u ++ b' :: v ++ [46] ++ natToDec t0 ++ [46] ++
    natToDec (t0 + 900000)) ?_ heq.symm
  rw [magicData, hseg]
  exact magic_data_ne _ _ _ _ _ _ hE' hI hX (hseg ▸ hE) hI hX
    (fun hall => replace_one_ne u v b b' hbb hall.1)

theorem tamperSeg1
    (magicKey : Str) (hmac : Str → Str → Str) (email : Str)
    (t0 now : Nat) (u v : Str) (b b' : Nat)
    (hh : HexOutput hmac) (hb : ∀ x ∈ email, x < 256)
    (hnow : now ≤ t0 + 900000)
    (hinj : ∀ d, d ≠ magicData email t0 →
      hmac magicKey d ≠ hmac magicKey (magicData email t0))
    (hseg : natToDec t0 = u ++ b :: v)
    (hb46 : b' ≠ 46) (hbb : b' ≠ b) :
    verifyMagicToken magicKey hmac
      (joinSep 46 [base64Encode email, u ++ b' :: v,
        natToDec (t0 + 900000), hmac magicKey (magicData email t0)]) now
      = none := by
  have hE := base64Encode_not_mem_46 email hb
  have hI := natToDec_not_mem_46 t0
  have hX := natToDec_not_mem_46 (t0 + 900000)
  have hH := hh.not_mem_46 magicKey (magicData email t0)
  have hI' : (46 : Nat) ∉ u ++ b' :: v :=
    replace_one_not_mem u v b b' 46 (hseg ▸ hI) (Ne.symm hb46)
  rw [verifyMagicToken_parts magicKey hmac _ _ _ _ now hE hI' hX hH,
    expiredCheck_natToDec_false now (t0 + 900000) hnow]
  rw [if_neg (by simp), if_neg]
  intro heq
  refine hinj (base64Encode email ++ [46] ++ (u ++ b' :: v) ++ [46] ++
    natToDec (t0 + 900000)) ?_ heq.symm
  rw [magicData, hseg]
  exact magic_data_ne _ _ _ _ _ _ hE hI' hX hE (hseg ▸ hI) hX
    (fun hall => replace_one_ne u v b b' hbb hall.2.1)

theorem tamperSeg2
    (magicKey : Str) (hmac : Str → Str → Str) (email : Str)
    (t0 now : Nat) (u v : Str) (b b' : Nat)
    (hh : HexOutput hmac) (hb : ∀ x ∈ email, x < 256)
    (hinj : ∀ d, d ≠ magicData email t0 →
      hmac magicKey d ≠ hmac magicKey (magicData email t0))
    (hseg : natToDec (t0 + 900000) = u ++ b :: v)
    (hb46 : b' ≠ 46) (hbb : b' ≠ b) :
    verifyMagicToken magicKey hmac
      (joinSep 46 [base64Encode email, natToDec t0, u ++ b' :: v,
        hmac magicKey (magicData email t0)]) now = none := by
  have hE := base64Encode_not_mem_46 email hb
  have hI := natToDec_not_mem_46 t0
  have hX := natToDec_not_mem_46 (t0 + 900000)
  have hH := hh.not_mem_46 magicKey (magicData email t0)
  have hX' : (46 : Nat) ∉ u ++ b' :: v :=
    replace_one_not_mem u v b b' 46 (hseg ▸ hX) (Ne.symm hb46)
  rw [verifyMagicToken_parts magicKey hmac _ _ _ _ now hE hI hX' hH]
  cases hxe : expiredCheck now (u ++ b' :: v) with
  | true => rw [if_pos rfl]
  | false =>
    rw [if_neg (by simp), if_neg]
    intro heq
    refine hinj (base64Encode email ++ [46] ++ natToDec t0 ++ [46] ++
      (u ++ b' :: v)) ?_ heq.symm
    rw [magicData, hseg]
    exact magic_data_ne _ _ _ _ _ _ hE hI hX' hE hI (hseg ▸ hX)
      (fun hall => replace_one_ne u v b b' hbb hall.2.2)

theorem tamperSeg3
    (magicKey : Str) (hmac : Str → Str → Str) (email : Str)
    (t0 now : Nat) (u v : Str) (b b' : Nat)
    (hh : HexOutput hmac) (hb : ∀ x ∈ email, x < 256)
    (hnow : now ≤ t0 + 900000)
    (hseg : hmac magicKey (magicData email t0) = u ++ b :: v)
    (hb46 : b' ≠ 46) (hbb : b' ≠ b) :
    verifyMagicToken magicKey hmac
      (joinSep 46 [base64Encode email, natToDec t0, natToDec (t0 + 900000),
        u ++ b' :: v]) now = none := by
  have hE := base64Encode_not_mem_46 email hb
  have hI := natToDec_not_mem_46 t0
  have hX := natToDec_not_mem_46 (t0 + 900000)
  have hH := hh.not_mem_46 magicKey (magicData email t0)
  have hH' : (46 : Nat) ∉ u ++ b' :: v :=
    replace_one_not_mem u v b b' 46 (hseg ▸ hH) (Ne.symm hb46)
  rw [verifyMagicToken_parts magicKey hmac _ _ _ _ now hE hI hX hH',
    expiredCheck_natToDec_false now (t0 + 900000) hnow]
  rw [if_neg (by simp), if_neg]
  intro heq
  refine replace_one_ne u v b b' hbb (heq.trans ?_)
  exact hseg

/-- C5: tampering detection: take a validly issued magic-link token
(generated at `t0`, redeemed at a time `now` at which it has not yet
expired) and change any single byte of any one of its four segments — the
encoded email, `issuedAt`, `expiresAt`, or the hash — to a different byte
that is not a dot (so the token keeps its four parts).  Under the claim's
own assumption that the HMAC is injective at the altered inputs,
`verifyMagicToken` rejects every such tampered token: the HMAC covers
exactly the first three dot-joined fields, so mutating any of them changes
the recomputed digest, and mutating the hash segment makes the supplied
hash differ from the recomputed digest.  A byte position is expressed by
the decomposition `segment = u ++ b :: v`, with `b'` the replacement
byte. -/
theorem magicToken_tamper_rejected
    (magicKey : Str) (hmac : Str → Str → Str) (email : Str)
    (t0 now : Nat) (u v : Str) (b b' : Nat)
    (hh : HexOutput hmac) (hb : ∀ x ∈ email, x < 256)
    (he : email ≠ []) (hk : magicKey ≠ [])
    (hnow : now ≤ t0 + 900000)
    (hinj : ∀ d, d ≠ magicData email t0 →
      hmac magicKey d ≠ hmac magicKey (magicData email t0))
    (hb46 : b' ≠ 46) (hbb : b' ≠ b) :
    generateMagicToken magicKey hmac email t0 =
      joinSep 46 [base64Encode email, natToDec t0, natToDec (t0 + 900000),
        hmac magicKey (magicData email t0)] ∧
    (base64Encode email = u ++ b :: v →
      verifyMagicToken magicKey hmac
        (joinSep 46 [u ++ b' :: v, natToDec t0, natToDec (t0 + 900000),
          hmac magicKey (magicData email t0)]) now = none) ∧
    (natToDec t0 = u ++ b :: v →
      verifyMagicToken magicKey hmac
        (joinSep 46 [base64Encode email, u ++ b' :: v,
          natToDec (t0 + 900000), hmac magicKey (magicData email t0)]) now
        = none) ∧
    (natToDec (t0 + 900000) = u ++ b :: v →
      verifyMagicToken magicKey hmac
        (joinSep 46 [base64Encode email, natToDec t0, u ++ b' :: v,
          hmac magicKey (magicData email t0)]) now = none) ∧
    (hmac magicKey (magicData email t0) = u ++ b :: v →
      verifyMagicToken magicKey hmac
        (joinSep 46 [base64Encode email, natToDec t0,
          natToDec (t0 + 900000), u ++ b' :: v]) now = none) :=
  ⟨generateMagicToken_eq magicKey hmac email t0 he hk,
   fun hseg => tamperSeg0 magicKey hmac email t0 now u v b b' hh hb hnow
     hinj hseg hb46 hbb,
   fun hseg => tamperSeg1 magicKey hmac email t0 now u v b b' hh hb hnow
     hinj hseg hb46 hbb,
   fun hseg => tamperSeg2 magicKey hmac email t0 now u v b b' hh hb
     hinj hseg hb46 hbb,
   fun hseg => tamperSeg3 magicKey hmac email t0 now u v b b' hh hb hnow
     hseg hb46 hbb⟩

theorem hmacZeros_hex : HexOutput hmacZeros := by
  intro k d b hb
  simp [hmacZeros] at hb
  subst hb
  exact Or.inl (by omega)

theorem jwtConst_shaped : JwtShaped jwtConst := by
  intro k u e
  refine ⟨bytes "eyJh", bytes "eyJ1", bytes "sig", ?_, by decide,
    by decide, by decide, by decide⟩
  show bytes "eyJh.eyJ1.sig" =
    bytes "eyJh" ++ 46 :: (bytes "eyJ1" ++ 46 :: bytes "sig")
  decide

theorem hmacPick_hex : HexOutput hmacPick := by
  intro k d b hb
  unfold hmacPick at hb
  split at hb <;> simp at hb <;> subst hb
  · exact Or.inl (by omega)
  · exact Or.inr (by omega)

theorem hmacPick_inj : ∀ d : Str, d ≠ magicData [97] 0 →
    hmacPick (bytes "mk") d ≠ hmacPick (bytes "mk") (magicData [97] 0) := by
  intro d hd
  unfold hmacPick
  rw [if_neg hd, if_pos rfl]
  decide

/-- Witness for C1 at a concrete account table, email and token shapes. -/
theorem c1_witness :
    (createSession (bytes "k") (bytes "r") jwtConst dbSample cacheEmpty
      (bytes "a@b.c")).1 =
      some (tokenPairJson (jwtConst (bytes "k") 1 (bytes "15m"))
        (jwtConst (bytes "r") 1 (bytes "7d"))) ∧
    verifySession (bytes "k") hmacZeros
      (createSession (bytes "k") (bytes "r") jwtConst dbSample cacheEmpty
        (bytes "a@b.c")).2
      (jwtConst (bytes "k") 1 (bytes "15m")) = false :=
  createSession_then_verifySession_false (bytes "k") (bytes "r") hmacZeros
    jwtConst dbSample cacheEmpty (bytes "a@b.c") ⟨1, bytes "hash"⟩
    hmacZeros_hex jwtConst_shaped (by decide) (by decide)

/-- Witness for C2 at a concrete account table and email. -/
theorem c2_witness :
    refreshSession (bytes "k") (bytes "r") hmacZeros jvTrue jwtConst
      (createSession (bytes "k") (bytes "r") jwtConst dbSample cacheEmpty
        (bytes "a@b.c")).2
      (jwtConst (bytes "r") 1 (bytes "7d")) =
      (none, (createSession (bytes "k") (bytes "r") jwtConst dbSample
        cacheEmpty (bytes "a@b.c")).2) :=
  refreshSession_first_call_fails (bytes "k") (bytes "r") hmacZeros jvTrue
    jwtConst dbSample cacheEmpty (bytes "a@b.c") ⟨1, bytes "hash"⟩
    (by decide) (by decide)

/-- Witness for C3: round trip of the email `"a"` issued and redeemed at
time 0. -/
theorem c3_witness :
    verifyMagicToken (bytes "mk") hmacZeros
      (generateMagicToken (bytes "mk") hmacZeros [97] 0) 0 = some [97] :=
  magicToken_roundtrip (bytes "mk") hmacZeros [97] 0 hmacZeros_hex
    (by decide) (by decide) (by decide)

/-- Witness for C4: the token issued at time 0 is rejected at time
901000 ms. -/
theorem c4_witness :
    verifyMagicToken (bytes "mk") hmacZeros
      (generateMagicToken (bytes "mk") hmacZeros [97] 0) (0 + 901000) =
      none :=
  magicToken_expired_rejected (bytes "mk") hmacZeros [97] 0 hmacZeros_hex
    (by decide) (by decide) (by decide)

/-- Witness for C5: flipping the first byte of the encoded-email segment
(`Y` to `Z`) of the token for `"a"` issued at time 0 makes redemption at
time 0 fail, for a digest function injective at the issued data. -/
theorem c5_witness :
    verifyMagicToken (bytes "mk") hmacPick
      (joinSep 46 [[] ++ 90 :: [81, 61, 61], natToDec 0,
        natToDec (0 + 900000), hmacPick (bytes "mk") (magicData [97] 0)])
      0 = none :=
  (magicToken_tamper_rejected (bytes "mk") hmacPick [97] 0 0 []
    [81, 61, 61] 89 90 hmacPick_hex (by decide) (by decide) (by decide)
    (by omega) hmacPick_inj (by decide) (by decide)).2.1 (by decide)

/-- Witness for C6: a concrete unknown email and a concrete known email
with a mismatching password produce the same failure result. -/
theorem c6_witness :
    login (bytes "k") (bytes "r") jwtConst bcFalse dbSample cacheEmpty
      (bytes "x@y.z") (bytes "pw") = (none, cacheEmpty) ∧
    login (bytes "k") (bytes "r") jwtConst bcFalse dbSample cacheEmpty
      (bytes "a@b.c") (bytes "pw") = (none, cacheEmpty) :=
  login_unknown_and_wrong_secret_identical (bytes "k") (bytes "r") jwtConst
    bcFalse dbSample cacheEmpty (bytes "x@y.z") (bytes "pw")
    (bytes "a@b.c") (bytes "pw") ⟨1, bytes "hash"⟩ (by decide) (by decide)
    (by decide)

/-- Witness for C9: a failing login (unknown email) leaves the concrete
cache unchanged. -/
theorem c9_witness :
    (login (bytes "k") (bytes "r") jwtConst bcFalse dbSample cacheEmpty
      (bytes "x@y.z") (bytes "pw")).2 = cacheEmpty :=
  login_failure_leaves_cache_unchanged (bytes "k") (bytes "r") jwtConst
    bcFalse dbSample cacheEmpty (bytes "x@y.z") (bytes "pw") (by decide)

/-- Witness for C10: a four-part token whose issuedAt segment reads 999
while its expiresAt reads 5 still redeems at time 3. -/
theorem c10_witness :
    verifyMagicToken (bytes "mk") hmacZeros
      (joinSep 46 [[97], [57, 57, 57], [53],
        hmacZeros (bytes "mk") ([97] ++ [46] ++ [57, 57, 57] ++ [46] ++
          [53])]) 3 = some (base64Decode [97]) :=
  verifyMagicToken_ignores_issuedAt (bytes "mk") hmacZeros [97]
    [57, 57, 57] [53] 3 hmacZeros_hex (by decide) (by decide) (by decide)
    (by decide)
